import Mathlib

/-!
Verification of the DuctMaster Pro duct-sizing engine (src/app.jsx).

The engine is a handful of pure numeric functions working in IP units
(CFM, in.wg/100ft, FPM, inches).  JavaScript double arithmetic is modelled
by exact real arithmetic: `Math.pow` with a fractional exponent becomes
`Real.rpow`, `Math.sqrt` becomes `Real.sqrt`, `Math.PI` becomes `Real.pi`.
-/

namespace DuctMaster

noncomputable section

/-! ## Conversion constants (src/app.jsx lines 19-22) -/

def CMH_TO_CFM : ℝ := 0.588578
def PA_M_TO_IN_100FT : ℝ := 0.1224
def M_S_TO_FPM : ℝ := 196.85
def MM_TO_IN : ℝ := 0.0393701

/-! ## HVAC math functions (src/app.jsx lines 25-62) -/

def solveDiaByFriction (cfm friction : ℝ) : ℝ :=
  if cfm ≤ 0 ∨ friction ≤ 0 then 0
  else ((0.109136 * cfm ^ (1.9 : ℝ)) / friction) ^ ((1 : ℝ) / 5.02)

def solveDiaByVelocity (cfm fpm : ℝ) : ℝ :=
  if cfm ≤ 0 ∨ fpm ≤ 0 then 0
  else 2 * Real.sqrt ((cfm / fpm) / Real.pi) * 12

def calcVelocity (cfm diaInches : ℝ) : ℝ :=
  if diaInches ≤ 0 then 0
  else cfm / (Real.pi * (diaInches / 24) ^ 2)

def calcFriction (cfm diaInches : ℝ) : ℝ :=
  if diaInches ≤ 0 ∨ cfm ≤ 0 then 0
  else (0.109136 * cfm ^ (1.9 : ℝ)) / diaInches ^ (5.02 : ℝ)

/-- The Huebscher equivalent-diameter expression computed in the body of
`solveRectDimension`'s loop: `calcDe = 1.30 * top / bot` with
`top = (knownSide*x)^0.625` and `bot = (knownSide+x)^0.25`. -/
def De (a b : ℝ) : ℝ := 1.30 * ((a * b) ^ (0.625 : ℝ) / (a + b) ^ (0.25 : ℝ))

/-- One iteration of the `for` loop of `solveRectDimension`
(src/app.jsx lines 51-60): the accumulator is `(minDiff, bestSide)`. -/
def scanStep (targetDia knownSide : ℝ) (acc : ℝ × ℝ) (x : ℝ) : ℝ × ℝ :=
  if |De knownSide x - targetDia| < acc.1 then (|De knownSide x - targetDia|, x) else acc

/-- The values taken by the loop variable `x` in
`for (let x = 2; x <= 150; x += 0.5)`: `2, 2.5, …, 150` (297 points). -/
def scanGrid : List ℝ := (List.range 297).map (fun n : ℕ => 2 + 0.5 * (n : ℝ))

def solveRectDimension (targetDia knownSide : ℝ) : ℝ :=
  if targetDia ≤ 0 ∨ knownSide ≤ 0 then 0
  else (scanGrid.foldl (scanStep targetDia knownSide) (1000, 0)).2

/-! ## Aspect-ratio check (src/app.jsx lines 224-228)

`safeSide` models the JavaScript idiom `side || 1` on a numeric side. -/

def safeSide (s : ℝ) : ℝ := if s = 0 then 1 else s

def ratioVal (a b : ℝ) : ℝ := max (safeSide a) (safeSide b) / min (safeSide a) (safeSide b)

def isRatioWarning (a b : ℝ) : Prop := ratioVal a b > 4

/-! ## Unit-conversion boundary (src/app.jsx lines 88-110 and 214-222)

The SI branch of each input handler multiplies by the constant to obtain the
canonical IP value; each SI display value divides the IP value by the same
constant. -/

def airflowToIP (v : ℝ) : ℝ := v * CMH_TO_CFM
def airflowToSI (ip : ℝ) : ℝ := ip / CMH_TO_CFM
def frictionToIP (v : ℝ) : ℝ := v * PA_M_TO_IN_100FT
def frictionToSI (ip : ℝ) : ℝ := ip / PA_M_TO_IN_100FT
def velocityToIP (v : ℝ) : ℝ := v * M_S_TO_FPM
def velocityToSI (ip : ℝ) : ℝ := ip / M_S_TO_FPM
def rectSideToIP (v : ℝ) : ℝ := v * MM_TO_IN
def rectSideToSI (ip : ℝ) : ℝ := ip / MM_TO_IN

/-! ## Recomputation pipeline (src/app.jsx lines 182-205) -/

inductive Mode where
  | friction
  | velocity

structure SizingState where
  mode : Mode
  airflowIP : ℝ
  frictionIP : ℝ
  velocityIP : ℝ
  rectSideIP : ℝ

structure SizingResult where
  diameter : ℝ
  velocity : ℝ
  friction : ℝ
  rectSide : ℝ

def solvedDia (s : SizingState) : ℝ :=
  match s.mode with
  | .friction => solveDiaByFriction s.airflowIP s.frictionIP
  | .velocity => solveDiaByVelocity s.airflowIP s.velocityIP

def computeSizing (s : SizingState) : SizingResult :=
  let d := solvedDia s
  { diameter := d
    velocity := match s.mode with
      | .friction => calcVelocity s.airflowIP d
      | .velocity => s.velocityIP
    friction := match s.mode with
      | .friction => s.frictionIP
      | .velocity => calcFriction s.airflowIP d
    rectSide := if 0 < d ∧ 0 < s.rectSideIP then solveRectDimension d s.rectSideIP else 0 }

end

/-! ## Basic helper lemmas -/

lemma solveDiaByFriction_pos {cfm f : ℝ} (hc : 0 < cfm) (hf : 0 < f) :
    0 < solveDiaByFriction cfm f := by
  rw [solveDiaByFriction, if_neg (by push_neg; exact ⟨hc, hf⟩)]
  apply Real.rpow_pos_of_pos
  apply div_pos _ hf
  have : (0:ℝ) < cfm ^ (1.9:ℝ) := Real.rpow_pos_of_pos hc _
  nlinarith

lemma solveDiaByVelocity_pos {cfm v : ℝ} (hc : 0 < cfm) (hv : 0 < v) :
    0 < solveDiaByVelocity cfm v := by
  rw [solveDiaByVelocity, if_neg (by push_neg; exact ⟨hc, hv⟩)]
  have h : (0:ℝ) < (cfm / v) / Real.pi := div_pos (div_pos hc hv) Real.pi_pos
  have := Real.sqrt_pos.mpr h
  nlinarith

/-! ## C1 : round-trip in friction mode -/

/-- C1: round-trip (friction mode). For every `cfm > 0` and
`frictionRate > 0`, with `D = solveDiaByFriction cfm frictionRate`,
`calcFriction cfm D` equals `frictionRate` — exactly, in the real-number
semantics of the code, hence in particular within any floating tolerance. -/
theorem roundtrip_friction (cfm f : ℝ) (hc : 0 < cfm) (hf : 0 < f) :
    calcFriction cfm (solveDiaByFriction cfm f) = f := by
  have hD : 0 < solveDiaByFriction cfm f := solveDiaByFriction_pos hc hf
  rw [calcFriction, if_neg (by push_neg; exact ⟨hD, hc⟩)]
  have hk : (0:ℝ) < 0.109136 * cfm ^ (1.9:ℝ) := by
    have : (0:ℝ) < cfm ^ (1.9:ℝ) := Real.rpow_pos_of_pos hc _
    nlinarith
  have hY : (0:ℝ) < (0.109136 * cfm ^ (1.9:ℝ)) / f := div_pos hk hf
  rw [solveDiaByFriction, if_neg (by push_neg; exact ⟨hc, hf⟩)]
  have hpow : (((0.109136 * cfm ^ (1.9:ℝ)) / f) ^ ((1:ℝ)/5.02)) ^ (5.02:ℝ)
      = (0.109136 * cfm ^ (1.9:ℝ)) / f := by
    rw [← Real.rpow_mul hY.le]
    norm_num
  rw [hpow]
  field_simp

/-- Witness for C1 at `cfm = 1`, `frictionRate = 1`. -/
theorem roundtrip_friction_witness :
    calcFriction 1 (solveDiaByFriction 1 1) = 1 :=
  roundtrip_friction 1 1 (by norm_num) (by norm_num)

/-! ## C2 : round-trip in velocity mode -/

/-- C2: round-trip (velocity mode). For every `cfm > 0` and `velocity > 0`,
with `D = solveDiaByVelocity cfm velocity`, `calcVelocity cfm D` equals
`velocity` — exactly, in the real-number semantics of the code. -/
theorem roundtrip_velocity (cfm v : ℝ) (hc : 0 < cfm) (hv : 0 < v) :
    calcVelocity cfm (solveDiaByVelocity cfm v) = v := by
  have hD : 0 < solveDiaByVelocity cfm v := solveDiaByVelocity_pos hc hv
  rw [calcVelocity, if_neg (not_le.mpr hD)]
  rw [solveDiaByVelocity, if_neg (by push_neg; exact ⟨hc, hv⟩)]
  have hA : (0:ℝ) < cfm / v := div_pos hc hv
  have hAp : (0:ℝ) ≤ (cfm / v) / Real.pi := le_of_lt (div_pos hA Real.pi_pos)
  have hsq : (2 * Real.sqrt ((cfm / v) / Real.pi) * 12 / 24) ^ 2 = (cfm / v) / Real.pi := by
    have h24 : 2 * Real.sqrt ((cfm / v) / Real.pi) * 12 / 24 = Real.sqrt ((cfm / v) / Real.pi) := by
      ring
    rw [h24, Real.sq_sqrt hAp]
  rw [hsq]
  have hpi : Real.pi * ((cfm / v) / Real.pi) = cfm / v := by
    field_simp
    ring
  rw [hpi]
  field_simp

/-- Witness for C2 at `cfm = 1`, `velocity = 1`. -/
theorem roundtrip_velocity_witness :
    calcVelocity 1 (solveDiaByVelocity 1 1) = 1 :=
  roundtrip_velocity 1 1 (by norm_num) (by norm_num)

/-! ## C3 : zero guards

The claim as stated is false: `calcVelocity` guards only the diameter, so a
negative `cfm` together with a positive diameter produces a negative result,
not `0`. -/

/-- Counterexample to C3 as stated: `calcVelocity (-576) 24` is negative
(it equals `-576 / π`), whereas the claim demands that every solver return
exactly `0` whenever any of the listed arguments — including `cfm` — is
non-positive. -/
theorem zero_guard_counterexample : calcVelocity (-576) 24 < 0 := by
  rw [calcVelocity, if_neg (by norm_num)]
  have h : ((24:ℝ) / 24) ^ 2 = 1 := by norm_num
  rw [h]
  have hpi : (0:ℝ) < Real.pi * 1 := by
    have := Real.pi_pos
    nlinarith
  exact div_neg_of_neg_of_pos (by norm_num) hpi

/-- C3 (amended): every solver returns exactly `0` whenever any of its own
guarded inputs is non-positive.  `solveDiaByFriction`, `solveDiaByVelocity`
and `calcFriction` guard both arguments, and `solveRectDimension` guards
both of its arguments, but `calcVelocity` guards only the diameter (its
second argument); with a non-positive `cfm` and a positive diameter it can
return a negative value (see the counterexample). -/
theorem zero_guards (x y : ℝ) (hx : x ≤ 0) :
    solveDiaByFriction x y = 0 ∧ solveDiaByFriction y x = 0 ∧
    solveDiaByVelocity x y = 0 ∧ solveDiaByVelocity y x = 0 ∧
    calcVelocity y x = 0 ∧
    calcFriction x y = 0 ∧ calcFriction y x = 0 ∧
    solveRectDimension x y = 0 ∧ solveRectDimension y x = 0 := by
  refine ⟨?_, ?_, ?_, ?_, ?_, ?_, ?_, ?_, ?_⟩ <;>
    simp only [solveDiaByFriction, solveDiaByVelocity, calcVelocity, calcFriction,
      solveRectDimension] <;>
    rw [if_pos] <;> first
      | exact hx
      | exact Or.inl hx
      | exact Or.inr hx

/-- Witness for C3 (amended) at `x = 0`, `y = 5`. -/
theorem zero_guards_witness :
    solveDiaByFriction 0 5 = 0 ∧ solveDiaByFriction 5 0 = 0 ∧
    solveDiaByVelocity 0 5 = 0 ∧ solveDiaByVelocity 5 0 = 0 ∧
    calcVelocity 5 0 = 0 ∧
    calcFriction 0 5 = 0 ∧ calcFriction 5 0 = 0 ∧
    solveRectDimension 0 5 = 0 ∧ solveRectDimension 5 0 = 0 :=
  zero_guards 0 5 (by norm_num)

/-! ## C5 : aspect-ratio evaluation -/

lemma safeSide_pos {s : ℝ} (hs : 0 ≤ s) : 0 < safeSide s := by
  rw [safeSide]
  split
  · norm_num
  · exact lt_of_le_of_ne hs (by tauto)

/-- C5: the aspect-ratio evaluation.  For sides `a, b ≥ 0` the computed
ratio is `max a' b' / min a' b'` where a zero side is first replaced by `1`;
the ratio is at least `1`; and the verdict is compliant (no warning) exactly
when the ratio is at most `4` — so ratio `4` is compliant and ratio `5` is
not. -/
theorem evaluateAspect_spec (a b : ℝ) (ha : 0 ≤ a) (hb : 0 ≤ b) :
    ratioVal a b
      = max (if a = 0 then 1 else a) (if b = 0 then 1 else b) /
        min (if a = 0 then 1 else a) (if b = 0 then 1 else b) ∧
    1 ≤ ratioVal a b ∧
    (¬ isRatioWarning a b ↔ ratioVal a b ≤ 4) := by
  have ha' : 0 < safeSide a := safeSide_pos ha
  have hb' : 0 < safeSide b := safeSide_pos hb
  have hmin : 0 < min (safeSide a) (safeSide b) := lt_min ha' hb'
  refine ⟨rfl, ?_, ?_⟩
  · rw [ratioVal, le_div_iff₀ hmin, one_mul]
    exact min_le_max
  · rw [isRatioWarning, not_lt]

/-- Witness for C5 at `a = 4`, `b = 20` (spec scenario D): the ratio is `5`
and the verdict is non-compliant. -/
theorem evaluateAspect_spec_witness :
    ratioVal 4 20 = 5 ∧ isRatioWarning 4 20 ∧
    (ratioVal 4 20
        = max (if (4:ℝ) = 0 then 1 else 4) (if (20:ℝ) = 0 then 1 else 20) /
          min (if (4:ℝ) = 0 then 1 else 4) (if (20:ℝ) = 0 then 1 else 20) ∧
      1 ≤ ratioVal 4 20 ∧
      (¬ isRatioWarning 4 20 ↔ ratioVal 4 20 ≤ 4)) := by
  have hval : ratioVal 4 20 = 5 := by
    rw [ratioVal, safeSide, safeSide]
    norm_num
  refine ⟨hval, ?_, evaluateAspect_spec 4 20 (by norm_num) (by norm_num)⟩
  rw [isRatioWarning, hval]
  norm_num

/-! ## C7 : unit-conversion factors -/

/-- C7: for each of the four physical quantities there is a single scalar
constant `c` such that the IP-to-SI (display) direction multiplies by `c`
and the SI-to-IP (canonicalisation) direction divides by the same `c`.
For the code's constants — which are SI-to-IP multipliers — the factor is
the reciprocal of the named constant. -/
theorem conversion_factors :
    ∃ cAir cFric cVel cLen : ℝ,
      0 < cAir ∧ 0 < cFric ∧ 0 < cVel ∧ 0 < cLen ∧
      ∀ v : ℝ,
        airflowToSI v = v * cAir ∧ airflowToIP v = v / cAir ∧
        frictionToSI v = v * cFric ∧ frictionToIP v = v / cFric ∧
        velocityToSI v = v * cVel ∧ velocityToIP v = v / cVel ∧
        rectSideToSI v = v * cLen ∧ rectSideToIP v = v / cLen := by
  refine ⟨CMH_TO_CFM⁻¹, PA_M_TO_IN_100FT⁻¹, M_S_TO_FPM⁻¹, MM_TO_IN⁻¹,
    ?_, ?_, ?_, ?_, ?_⟩
  · rw [CMH_TO_CFM]; norm_num
  · rw [PA_M_TO_IN_100FT]; norm_num
  · rw [M_S_TO_FPM]; norm_num
  · rw [MM_TO_IN]; norm_num
  intro v
  refine ⟨?_, ?_, ?_, ?_, ?_, ?_, ?_, ?_⟩ <;>
    simp only [airflowToSI, airflowToIP, frictionToSI, frictionToIP,
      velocityToSI, velocityToIP, rectSideToSI, rectSideToIP,
      CMH_TO_CFM, PA_M_TO_IN_100FT, M_S_TO_FPM, MM_TO_IN,
      div_eq_mul_inv, inv_inv]

/-! ## C8 : the requiredSide guard in the recomputation pipeline -/

/-- C8: in the recomputation pipeline the rectangular required side is
`solveRectDimension diameter constraintSide` exactly when the solved
diameter and the constraint side are both positive, and `0` in every other
case. -/
theorem requiredSide_guard (s : SizingState) :
    (0 < solvedDia s ∧ 0 < s.rectSideIP →
      (computeSizing s).rectSide = solveRectDimension (solvedDia s) s.rectSideIP) ∧
    (¬ (0 < solvedDia s ∧ 0 < s.rectSideIP) →
      (computeSizing s).rectSide = 0) := by
  constructor
  · intro h
    rw [computeSizing]
    simp only [if_pos h]
  · intro h
    rw [computeSizing]
    simp only [if_neg h]

/-- Witness for C8: a state whose constraint side is `0` yields a required
side of exactly `0`. -/
theorem requiredSide_guard_witness :
    (computeSizing ⟨Mode.friction, 1000, 0.1, 1200, 0⟩).rectSide = 0 :=
  (requiredSide_guard ⟨Mode.friction, 1000, 0.1, 1200, 0⟩).2
    (fun h => absurd h.2 (lt_irrefl 0))

/-! ## Facts about the scan grid -/

lemma mem_scanGrid {x : ℝ} :
    x ∈ scanGrid ↔ ∃ n : ℕ, n ≤ 296 ∧ x = 2 + 0.5 * n := by
  simp only [scanGrid, List.mem_map, List.mem_range]
  constructor
  · rintro ⟨n, hn, rfl⟩
    exact ⟨n, by omega, rfl⟩
  · rintro ⟨n, hn, rfl⟩
    exact ⟨n, by omega, rfl⟩

lemma scanGrid_two_le : ∀ x ∈ scanGrid, (2:ℝ) ≤ x := by
  intro x hx
  obtain ⟨n, -, rfl⟩ := mem_scanGrid.mp hx
  have : (0:ℝ) ≤ (n:ℝ) := Nat.cast_nonneg n
  linarith

lemma scanGrid_pos : ∀ x ∈ scanGrid, (0:ℝ) < x :=
  fun x hx => lt_of_lt_of_le (by norm_num) (scanGrid_two_le x hx)

lemma scanGrid_le_150 : ∀ x ∈ scanGrid, x ≤ 150 := by
  intro x hx
  obtain ⟨n, hn, rfl⟩ := mem_scanGrid.mp hx
  have : (n:ℝ) ≤ 296 := by exact_mod_cast hn
  linarith

lemma scanGrid_pairwise : scanGrid.Pairwise (· < ·) := by
  rw [scanGrid, List.pairwise_map]
  have h : (List.range 297).Pairwise (· < ·) := List.pairwise_lt_range 297
  refine h.imp ?_
  intro a b hab
  have : (a:ℝ) < (b:ℝ) := by exact_mod_cast hab
  linarith

lemma two_mem_scanGrid : (2:ℝ) ∈ scanGrid :=
  mem_scanGrid.mpr ⟨0, by norm_num, by norm_num⟩

lemma twoPointFive_mem_scanGrid : (2.5:ℝ) ∈ scanGrid :=
  mem_scanGrid.mpr ⟨1, by norm_num, by norm_num⟩

lemma scanGrid_ne_two {y : ℝ} (hy : y ∈ scanGrid) (h2 : y ≠ 2) : 2.5 ≤ y := by
  obtain ⟨n, -, rfl⟩ := mem_scanGrid.mp hy
  rcases Nat.eq_zero_or_pos n with h | h
  · subst h; norm_num at h2
  · have : (1:ℝ) ≤ (n:ℝ) := by exact_mod_cast h
    linarith

/-! ## Behaviour of the scan fold -/

lemma scan_noupdate (t k : ℝ) :
    ∀ (l : List ℝ) (acc : ℝ × ℝ),
      (∀ x ∈ l, acc.1 ≤ |De k x - t|) →
      l.foldl (scanStep t k) acc = acc := by
  intro l
  induction l with
  | nil => intro acc _; rfl
  | cons x xs ih =>
    intro acc h
    rw [List.foldl_cons]
    have hx : acc.1 ≤ |De k x - t| := h x (List.mem_cons_self _ _)
    rw [scanStep, if_neg (not_lt.mpr hx)]
    exact ih acc (fun y hy => h y (List.mem_cons_of_mem _ hy))

lemma scan_min (t k : ℝ) :
    ∀ (l : List ℝ) (acc : ℝ × ℝ),
      (l.foldl (scanStep t k) acc).1 ≤ acc.1 ∧
      ∀ x ∈ l, (l.foldl (scanStep t k) acc).1 ≤ |De k x - t| := by
  intro l
  induction l with
  | nil => intro acc; exact ⟨le_refl _, by simp⟩
  | cons x xs ih =>
    intro acc
    rw [List.foldl_cons, scanStep]
    by_cases h : |De k x - t| < acc.1
    · rw [if_pos h]
      refine ⟨le_trans (ih _).1 (le_of_lt h), ?_⟩
      intro y hy
      rcases List.mem_cons.mp hy with rfl | hy'
      · exact (ih _).1
      · exact (ih _).2 y hy'
    · rw [if_neg h]
      refine ⟨(ih acc).1, ?_⟩
      intro y hy
      rcases List.mem_cons.mp hy with rfl | hy'
      · exact le_trans (ih acc).1 (not_lt.mp h)
      · exact (ih acc).2 y hy'

lemma scan_provenance (t k : ℝ) :
    ∀ (l : List ℝ) (acc : ℝ × ℝ),
      l.foldl (scanStep t k) acc = acc ∨
      ((l.foldl (scanStep t k) acc).2 ∈ l ∧
        (l.foldl (scanStep t k) acc).1 = |De k (l.foldl (scanStep t k) acc).2 - t| ∧
        (l.foldl (scanStep t k) acc).1 < acc.1) := by
  intro l
  induction l with
  | nil => intro acc; left; rfl
  | cons x xs ih =>
    intro acc
    rw [List.foldl_cons, scanStep]
    by_cases h : |De k x - t| < acc.1
    · rw [if_pos h]
      rcases ih (|De k x - t|, x) with heq | ⟨hmem, hval, hlt⟩
      · right
        rw [heq]
        exact ⟨List.mem_cons_self _ _, rfl, h⟩
      · right
        exact ⟨List.mem_cons_of_mem _ hmem, hval, lt_trans hlt h⟩
    · rw [if_neg h]
      rcases ih acc with heq | ⟨hmem, hval, hlt⟩
      · left; exact heq
      · right
        exact ⟨List.mem_cons_of_mem _ hmem, hval, hlt⟩

lemma scan_first_wins (t k : ℝ) :
    ∀ (l : List ℝ) (acc : ℝ × ℝ),
      l.Pairwise (· < ·) → (∀ x ∈ l, acc.2 < x) →
      ∀ y ∈ l, y < (l.foldl (scanStep t k) acc).2 →
        (l.foldl (scanStep t k) acc).1 < |De k y - t| := by
  intro l
  induction l with
  | nil => intro acc _ _ y hy; exact absurd hy (List.not_mem_nil y)
  | cons x xs ih =>
    intro acc hpair hacc y hy hlt
    have hpair' : xs.Pairwise (· < ·) := hpair.of_cons
    have hxlt : ∀ z ∈ xs, x < z := fun z hz => List.rel_of_pairwise_cons hpair hz
    rw [List.foldl_cons, scanStep] at hlt ⊢
    by_cases h : |De k x - t| < acc.1
    · rw [if_pos h] at hlt ⊢
      rcases List.mem_cons.mp hy with rfl | hy'
      · -- y = x and x is strictly below the final best, so a later update happened
        rcases scan_provenance t k xs (|De k y - t|, y) with heq | ⟨-, -, hlt'⟩
        · rw [heq] at hlt
          exact absurd hlt (lt_irrefl y)
        · exact lt_of_lt_of_le hlt' (le_refl _)
      · exact ih (|De k x - t|, x) hpair' hxlt y hy' hlt
    · rw [if_neg h] at hlt ⊢
      rcases List.mem_cons.mp hy with rfl | hy'
      · rcases scan_provenance t k xs acc with heq | ⟨-, -, hlt'⟩
        · rw [heq] at hlt
          exact absurd hlt (not_lt.mpr (le_of_lt (hacc y (List.mem_cons_self _ _))))
        · exact lt_of_lt_of_le hlt' (not_lt.mp h)
      · exact ih acc hpair' (fun z hz => hacc z (List.mem_cons_of_mem _ hz)) y hy' hlt

/-! ## Bounds on the equivalent-diameter expression -/

lemma De_nonneg {a b : ℝ} (ha : 0 ≤ a) (hb : 0 ≤ b) : 0 ≤ De a b := by
  rw [De]
  have h1 : (0:ℝ) ≤ (a * b) ^ (0.625:ℝ) := Real.rpow_nonneg (mul_nonneg ha hb) _
  have h2 : (0:ℝ) ≤ (a + b) ^ (0.25:ℝ) := Real.rpow_nonneg (by linarith) _
  positivity

lemma De_le_bound {a b M : ℝ} (ha : 0 ≤ a) (hb : 0 ≤ b) (hM : 1 ≤ M)
    (hab : a * b ≤ M) (hs : 1 ≤ a + b) : De a b ≤ 1.30 * M := by
  rw [De]
  have h1 : (a * b) ^ (0.625:ℝ) ≤ M ^ (0.625:ℝ) :=
    Real.rpow_le_rpow (mul_nonneg ha hb) hab (by norm_num)
  have h2 : M ^ (0.625:ℝ) ≤ M ^ (1:ℝ) :=
    Real.rpow_le_rpow_of_exponent_le hM (by norm_num)
  rw [Real.rpow_one] at h2
  have h3 : (1:ℝ) ≤ (a + b) ^ (0.25:ℝ) := by
    have := Real.rpow_le_rpow (le_of_lt one_pos) hs (by norm_num : (0:ℝ) ≤ 0.25)
    rwa [Real.one_rpow] at this
  have hnum : (0:ℝ) ≤ (a * b) ^ (0.625:ℝ) := Real.rpow_nonneg (mul_nonneg ha hb) _
  have h4 : (a * b) ^ (0.625:ℝ) / (a + b) ^ (0.25:ℝ) ≤ (a * b) ^ (0.625:ℝ) := by
    rw [div_le_iff₀ (lt_of_lt_of_le one_pos h3)]
    nlinarith
  nlinarith

/-- Lower-bounds a real power with a rational exponent `m / n` by an
ordinary power comparison: `c ≤ A ^ (m/n)` follows from `c ^ n ≤ A ^ m`. -/
lemma le_rpow_of_pow_le (m n : ℕ) {A c p : ℝ} (hA : 0 ≤ A) (hc : 0 ≤ c)
    (hn : n ≠ 0) (hp : p = m / n) (h : c ^ n ≤ A ^ m) : c ≤ A ^ p := by
  have hn' : ((n:ℝ)) ≠ 0 := Nat.cast_ne_zero.mpr hn
  have h1 : ((c ^ n : ℝ)) ^ ((1:ℝ)/n) ≤ ((A ^ m : ℝ)) ^ ((1:ℝ)/n) :=
    Real.rpow_le_rpow (pow_nonneg hc n) h (by positivity)
  have h2 : ((c ^ n : ℝ)) ^ ((1:ℝ)/n) = c := by
    rw [← Real.rpow_natCast c n, ← Real.rpow_mul hc]
    rw [mul_one_div, div_self hn', Real.rpow_one]
  have h3 : ((A ^ m : ℝ)) ^ ((1:ℝ)/n) = A ^ p := by
    rw [← Real.rpow_natCast A m, ← Real.rpow_mul hA, hp]
    congr 1
    field_simp
  rw [h2, h3] at h1
  exact h1

/-- Upper-bounds a real power with a rational exponent `m / n` by an
ordinary power comparison: `A ^ (m/n) ≤ c` follows from `A ^ m ≤ c ^ n`. -/
lemma rpow_le_of_pow_le (m n : ℕ) {A c p : ℝ} (hA : 0 ≤ A) (hc : 0 ≤ c)
    (hn : n ≠ 0) (hp : p = m / n) (h : A ^ m ≤ c ^ n) : A ^ p ≤ c := by
  have hn' : ((n:ℝ)) ≠ 0 := Nat.cast_ne_zero.mpr hn
  have h1 : ((A ^ m : ℝ)) ^ ((1:ℝ)/n) ≤ ((c ^ n : ℝ)) ^ ((1:ℝ)/n) :=
    Real.rpow_le_rpow (pow_nonneg hA m) h (by positivity)
  have h2 : ((c ^ n : ℝ)) ^ ((1:ℝ)/n) = c := by
    rw [← Real.rpow_natCast c n, ← Real.rpow_mul hc]
    rw [mul_one_div, div_self hn', Real.rpow_one]
  have h3 : ((A ^ m : ℝ)) ^ ((1:ℝ)/n) = A ^ p := by
    rw [← Real.rpow_natCast A m, ← Real.rpow_mul hA, hp]
    congr 1
    field_simp
  rw [h2, h3] at h1
  exact h1

lemma De_pos {a b : ℝ} (ha : 0 < a) (hb : 0 < b) : 0 < De a b := by
  rw [De]
  have h1 : (0:ℝ) < (a * b) ^ (0.625:ℝ) := Real.rpow_pos_of_pos (mul_pos ha hb) _
  have h2 : (0:ℝ) < (a + b) ^ (0.25:ℝ) := Real.rpow_pos_of_pos (by linarith) _
  positivity

/-- With the first side fixed, the Huebscher equivalent diameter is
monotone in the other side. -/
lemma De_mono {a x y : ℝ} (ha : 0 < a) (hx : 0 < x) (hxy : x ≤ y) :
    De a x ≤ De a y := by
  have hy : 0 < y := lt_of_lt_of_le hx hxy
  have hax : 0 < a * x := mul_pos ha hx
  have hay : 0 < a * y := mul_pos ha hy
  have hsx : 0 < a + x := by linarith
  have hsy : 0 < a + y := by linarith
  have hr : (1:ℝ) ≤ y / x := (one_le_div hx).mpr hxy
  have hrnn : (0:ℝ) ≤ y / x := by linarith
  have key1 : a + y ≤ (a + x) * (y / x) := by
    rw [mul_div_assoc', le_div_iff₀ hx]
    nlinarith
  have key2 : (a + y) ^ (0.25:ℝ) ≤ (a + x) ^ (0.25:ℝ) * (y / x) ^ (0.25:ℝ) := by
    rw [← Real.mul_rpow (le_of_lt hsx) hrnn]
    exact Real.rpow_le_rpow (le_of_lt hsy) key1 (by norm_num)
  have key3 : (y / x) ^ (0.25:ℝ) ≤ (y / x) ^ (0.625:ℝ) :=
    Real.rpow_le_rpow_of_exponent_le hr (by norm_num)
  have key4 : (a * x) ^ (0.625:ℝ) * (y / x) ^ (0.625:ℝ) = (a * y) ^ (0.625:ℝ) := by
    rw [← Real.mul_rpow (le_of_lt hax) hrnn]
    congr 1
    field_simp
    ring
  have hDx : 0 < (a + x) ^ (0.25:ℝ) := Real.rpow_pos_of_pos hsx _
  have hDy : 0 < (a + y) ^ (0.25:ℝ) := Real.rpow_pos_of_pos hsy _
  have hNx : (0:ℝ) ≤ (a * x) ^ (0.625:ℝ) := Real.rpow_nonneg (le_of_lt hax) _
  have hq : (0:ℝ) ≤ (y / x) ^ (0.25:ℝ) := Real.rpow_nonneg hrnn _
  have main : (a * x) ^ (0.625:ℝ) / (a + x) ^ (0.25:ℝ)
      ≤ (a * y) ^ (0.625:ℝ) / (a + y) ^ (0.25:ℝ) := by
    rw [div_le_div_iff₀ hDx hDy]
    calc (a * x) ^ (0.625:ℝ) * (a + y) ^ (0.25:ℝ)
        ≤ (a * x) ^ (0.625:ℝ) * ((a + x) ^ (0.25:ℝ) * (y / x) ^ (0.25:ℝ)) :=
          mul_le_mul_of_nonneg_left key2 hNx
      _ ≤ (a * x) ^ (0.625:ℝ) * ((a + x) ^ (0.25:ℝ) * (y / x) ^ (0.625:ℝ)) := by
          apply mul_le_mul_of_nonneg_left _ hNx
          exact mul_le_mul_of_nonneg_left key3 (le_of_lt hDx)
      _ = ((a * x) ^ (0.625:ℝ) * (y / x) ^ (0.625:ℝ)) * (a + x) ^ (0.25:ℝ) := by
          ring
      _ = (a * y) ^ (0.625:ℝ) * (a + x) ^ (0.25:ℝ) := by rw [key4]
  rw [De, De]
  nlinarith [main]

/-! ## C10 : output range of the rectangular search -/

/-- C10: for every input pair, `solveRectDimension` returns either exactly
`0` or a value `2 + 0.5 * n` for some natural `n ≤ 296` (hence a multiple
of `0.5` in `[2, 150]`). -/
theorem solveRect_output_range (t k : ℝ) :
    solveRectDimension t k = 0 ∨
    ∃ n : ℕ, n ≤ 296 ∧ solveRectDimension t k = 2 + 0.5 * n := by
  rw [solveRectDimension]
  split_ifs with h
  · left; rfl
  · rcases scan_provenance t k scanGrid (1000, 0) with heq | ⟨hmem, -, -⟩
    · left; rw [heq]
    · right; exact mem_scanGrid.mp hmem

/-! ## C4 : best-match search -/

/-- Counterexample to C4 as stated: at `targetDiameter = 2000`,
`knownSide = 2` (both positive) every scan point has
`|De − target| ≥ 1000`, the initial `minDiff`, so the loop never updates
`bestSide` and the function returns `0` — which is not a scan point at all,
hence not the difference-minimising scan point. -/
theorem solveRect_best_match_counterexample :
    solveRectDimension 2000 2 = 0 ∧ ∀ x ∈ scanGrid, 0 < x := by
  refine ⟨?_, scanGrid_pos⟩
  rw [solveRectDimension, if_neg (by norm_num)]
  have hall : ∀ x ∈ scanGrid, ((1000:ℝ), (0:ℝ)).1 ≤ |De 2 x - 2000| := by
    intro x hx
    show (1000:ℝ) ≤ |De 2 x - 2000|
    have h2 : (2:ℝ) ≤ x := scanGrid_two_le x hx
    have h150 : x ≤ 150 := scanGrid_le_150 x hx
    have hb : De 2 x ≤ 1.30 * 300 :=
      De_le_bound (by norm_num) (by linarith) (by norm_num) (by nlinarith) (by linarith)
    have hnn : 0 ≤ De 2 x := De_nonneg (by norm_num) (by linarith)
    rw [abs_of_nonpos (by linarith)]
    linarith
  rw [scan_noupdate 2000 2 scanGrid (1000, 0) hall]

/-- C4 (amended): whenever some scan point comes within the initial
sentinel `1000` of the target (always the case for realistic inputs),
`solveRectDimension targetDia knownSide` returns a scan point of
`{2, 2.5, …, 150}` minimising `|De knownSide x − targetDia|`; when every
scan point misses by at least `1000`, it returns `0` instead. -/
theorem solveRect_best_match (t k : ℝ) (ht : 0 < t) (hk : 0 < k)
    (hexists : ∃ x ∈ scanGrid, |De k x - t| < 1000) :
    solveRectDimension t k ∈ scanGrid ∧
    ∀ y ∈ scanGrid, |De k (solveRectDimension t k) - t| ≤ |De k y - t| := by
  have hguard : ¬ (t ≤ 0 ∨ k ≤ 0) := by push_neg; exact ⟨ht, hk⟩
  rw [solveRectDimension, if_neg hguard]
  obtain ⟨x0, hx0, hx0lt⟩ := hexists
  have hmin := scan_min t k scanGrid (1000, 0)
  have hm : (scanGrid.foldl (scanStep t k) (1000, 0)).1 < 1000 :=
    lt_of_le_of_lt (hmin.2 x0 hx0) hx0lt
  rcases scan_provenance t k scanGrid (1000, 0) with heq | ⟨hmem, hval, -⟩
  · rw [heq] at hm
    norm_num at hm
  · refine ⟨hmem, fun y hy => ?_⟩
    rw [← hval]
    exact hmin.2 y hy

/-- Witness for C4 (amended) at `targetDia = 10`, `knownSide = 10`: the
scan point `2` already has `|De 10 2 − 10| < 1000`. -/
theorem solveRect_best_match_witness :
    (0:ℝ) < 10 ∧ (∃ x ∈ scanGrid, |De 10 x - 10| < 1000) ∧
    solveRectDimension 10 10 ∈ scanGrid ∧
    ∀ y ∈ scanGrid, |De 10 (solveRectDimension 10 10) - 10| ≤ |De 10 y - 10| := by
  have hex : ∃ x ∈ scanGrid, |De 10 x - 10| < 1000 := by
    refine ⟨2, two_mem_scanGrid, ?_⟩
    have h1 : 0 ≤ De 10 2 := De_nonneg (by norm_num) (by norm_num)
    have h2 : De 10 2 ≤ 1.30 * 20 :=
      De_le_bound (by norm_num) (by norm_num) (by norm_num) (by norm_num) (by norm_num)
    rw [abs_lt]
    constructor <;> linarith
  exact ⟨by norm_num, hex, solveRect_best_match 10 10 (by norm_num) (by norm_num) hex⟩

/-! ## C6 : tie-break policy of the scan -/

/-- C6 (amended): the scan updates its best candidate only on a strictly
smaller absolute difference, so — provided the scan updates at all, i.e.
the minimal difference beats the initial sentinel `1000` — whenever two
scan points `x1 < x2` both attain the minimal difference, the returned
value is at most `x1` and is never the larger tied point `x2` (and it
attains the same minimal difference).  When every difference is at least
`1000` the function returns `0` instead, regardless of ties. -/
theorem solveRect_tiebreak (t k x1 x2 : ℝ) (ht : 0 < t) (hk : 0 < k)
    (hx1 : x1 ∈ scanGrid) (hx2 : x2 ∈ scanGrid) (hlt : x1 < x2)
    (htie : |De k x1 - t| = |De k x2 - t|)
    (hmin : ∀ y ∈ scanGrid, |De k x1 - t| ≤ |De k y - t|)
    (hsent : |De k x1 - t| < 1000) :
    solveRectDimension t k ∈ scanGrid ∧
    |De k (solveRectDimension t k) - t| = |De k x1 - t| ∧
    solveRectDimension t k ≤ x1 ∧ solveRectDimension t k ≠ x2 := by
  have hguard : ¬ (t ≤ 0 ∨ k ≤ 0) := by push_neg; exact ⟨ht, hk⟩
  rw [solveRectDimension, if_neg hguard]
  have hminify := scan_min t k scanGrid (1000, 0)
  have hm : (scanGrid.foldl (scanStep t k) (1000, 0)).1 < 1000 :=
    lt_of_le_of_lt (hminify.2 x1 hx1) hsent
  rcases scan_provenance t k scanGrid (1000, 0) with heq | ⟨hmem, hval, -⟩
  · rw [heq] at hm
    norm_num at hm
  · have hle : |De k (scanGrid.foldl (scanStep t k) (1000, 0)).2 - t| ≤ |De k x1 - t| := by
      rw [← hval]
      exact hminify.2 x1 hx1
    have hge : |De k x1 - t| ≤ |De k (scanGrid.foldl (scanStep t k) (1000, 0)).2 - t| :=
      hmin _ hmem
    have heqv : |De k (scanGrid.foldl (scanStep t k) (1000, 0)).2 - t| = |De k x1 - t| :=
      le_antisymm hle hge
    have hle1 : (scanGrid.foldl (scanStep t k) (1000, 0)).2 ≤ x1 := by
      by_contra hgt
      push_neg at hgt
      have hfw := scan_first_wins t k scanGrid (1000, 0) scanGrid_pairwise
        (fun z hz => scanGrid_pos z hz) x1 hx1 hgt
      rw [hval, heqv] at hfw
      exact lt_irrefl _ hfw
    refine ⟨hmem, heqv, hle1, ?_⟩
    intro hcontra
    rw [hcontra] at hle1
    linarith

/-- Witness for C6 (amended): with `knownSide = 2` and the target placed
exactly halfway between `De 2 2` and `De 2 2.5`, the scan points `2` and
`2.5` tie for the minimal difference and the returned side is `≤ 2`
(the smaller of the two), never `2.5`. -/
theorem solveRect_tiebreak_witness :
    (2:ℝ) ∈ scanGrid ∧ (2.5:ℝ) ∈ scanGrid ∧ (2:ℝ) < 2.5 ∧
    |De 2 2 - (De 2 2 + De 2 2.5) / 2| = |De 2 2.5 - (De 2 2 + De 2 2.5) / 2| ∧
    (∀ y ∈ scanGrid,
      |De 2 2 - (De 2 2 + De 2 2.5) / 2| ≤ |De 2 y - (De 2 2 + De 2 2.5) / 2|) ∧
    |De 2 2 - (De 2 2 + De 2 2.5) / 2| < 1000 ∧
    (solveRectDimension ((De 2 2 + De 2 2.5) / 2) 2 ∈ scanGrid ∧
      |De 2 (solveRectDimension ((De 2 2 + De 2 2.5) / 2) 2) - (De 2 2 + De 2 2.5) / 2|
        = |De 2 2 - (De 2 2 + De 2 2.5) / 2| ∧
      solveRectDimension ((De 2 2 + De 2 2.5) / 2) 2 ≤ 2 ∧
      solveRectDimension ((De 2 2 + De 2 2.5) / 2) 2 ≠ 2.5) := by
  have hpos2 : (0:ℝ) < De 2 2 := De_pos (by norm_num) (by norm_num)
  have hpos25 : (0:ℝ) < De 2 2.5 := De_pos (by norm_num) (by norm_num)
  have hub2 : De 2 2 ≤ 1.30 * 5 :=
    De_le_bound (by norm_num) (by norm_num) (by norm_num) (by norm_num) (by norm_num)
  have hub25 : De 2 2.5 ≤ 1.30 * 5 :=
    De_le_bound (by norm_num) (by norm_num) (by norm_num) (by norm_num) (by norm_num)
  have hmono : De 2 2 ≤ De 2 2.5 := De_mono (by norm_num) (by norm_num) (by norm_num)
  have ht : (0:ℝ) < (De 2 2 + De 2 2.5) / 2 := by linarith
  have htie : |De 2 2 - (De 2 2 + De 2 2.5) / 2|
      = |De 2 2.5 - (De 2 2 + De 2 2.5) / 2| := by
    have harr : De 2 2 - (De 2 2 + De 2 2.5) / 2
        = -(De 2 2.5 - (De 2 2 + De 2 2.5) / 2) := by ring
    rw [harr, abs_neg]
  have hmin : ∀ y ∈ scanGrid,
      |De 2 2 - (De 2 2 + De 2 2.5) / 2| ≤ |De 2 y - (De 2 2 + De 2 2.5) / 2| := by
    intro y hy
    by_cases h2 : y = 2
    · subst h2
      exact le_refl _
    · have h25 : (2.5:ℝ) ≤ y := scanGrid_ne_two hy h2
      have hDy : De 2 2.5 ≤ De 2 y := De_mono (by norm_num) (by norm_num) h25
      rw [abs_of_nonpos (by linarith), abs_of_nonneg (by linarith)]
      linarith
  have hsent : |De 2 2 - (De 2 2 + De 2 2.5) / 2| < 1000 := by
    rw [abs_of_nonpos (by linarith)]
    linarith
  exact ⟨two_mem_scanGrid, twoPointFive_mem_scanGrid, by norm_num, htie, hmin, hsent,
    solveRect_tiebreak ((De 2 2 + De 2 2.5) / 2) 2 2 2.5 ht (by norm_num)
      two_mem_scanGrid twoPointFive_mem_scanGrid (by norm_num) htie hmin hsent⟩

/-- Counterexample to C6 as stated: with `knownSide = 10^11` and the target
halfway between `De (10^11) 2` and `De (10^11) 2.5`, the scan points `2`
and `2.5` tie for the minimal difference — but that difference exceeds the
initial `minDiff` of `1000` (the gap between the two `De` values is over
`2000`), so the loop never updates and `solveRectDimension` returns `0`,
not the smaller tied scan point `2`. -/
theorem solveRect_tiebreak_counterexample :
    (2:ℝ) ∈ scanGrid ∧ (2.5:ℝ) ∈ scanGrid ∧ (2:ℝ) < 2.5 ∧
    |De ((100000000000:ℝ)) 2 - (De ((100000000000:ℝ)) 2 + De ((100000000000:ℝ)) 2.5) / 2|
      = |De ((100000000000:ℝ)) 2.5 - (De ((100000000000:ℝ)) 2 + De ((100000000000:ℝ)) 2.5) / 2| ∧
    (∀ y ∈ scanGrid,
      |De ((100000000000:ℝ)) 2 - (De ((100000000000:ℝ)) 2 + De ((100000000000:ℝ)) 2.5) / 2|
        ≤ |De ((100000000000:ℝ)) y - (De ((100000000000:ℝ)) 2 + De ((100000000000:ℝ)) 2.5) / 2|) ∧
    solveRectDimension ((De ((100000000000:ℝ)) 2 + De ((100000000000:ℝ)) 2.5) / 2) ((100000000000:ℝ)) = 0 ∧
    solveRectDimension ((De ((100000000000:ℝ)) 2 + De ((100000000000:ℝ)) 2.5) / 2) ((100000000000:ℝ)) ≠ 2 := by
  have hK : (0:ℝ) < (100000000000:ℝ) := by positivity
  have hpos2 : (0:ℝ) < De ((100000000000:ℝ)) 2 := De_pos hK (by norm_num)
  have hpos25 : (0:ℝ) < De ((100000000000:ℝ)) 2.5 := De_pos hK (by norm_num)
  -- numeric lower bound on De (10^11) 2.5
  have hnum25 : (13200000:ℝ) ≤ ((100000000000:ℝ) * 2.5) ^ (0.625:ℝ) :=
    le_rpow_of_pow_le 5 8 (by positivity) (by norm_num) (by norm_num) (by norm_num)
      (by norm_num)
  have hden25 : ((100000000000:ℝ) + 2.5) ^ (0.25:ℝ) ≤ 563 :=
    rpow_le_of_pow_le 1 4 (by positivity) (by norm_num) (by norm_num) (by norm_num)
      (by norm_num)
  have hden25pos : (0:ℝ) < ((100000000000:ℝ) + 2.5) ^ (0.25:ℝ) :=
    Real.rpow_pos_of_pos (by positivity) _
  have hlo : 1.30 * ((13200000:ℝ) / 563) ≤ De ((100000000000:ℝ)) 2.5 := by
    rw [De]
    refine mul_le_mul_of_nonneg_left ?_ (by norm_num)
    exact div_le_div₀ (by linarith [hnum25]) hnum25 hden25pos hden25
  -- numeric upper bound on De (10^11) 2
  have hnum2 : ((100000000000:ℝ) * 2) ^ (0.625:ℝ) ≤ 12000000 :=
    rpow_le_of_pow_le 5 8 (by positivity) (by norm_num) (by norm_num) (by norm_num)
      (by norm_num)
  have hden2 : (562:ℝ) ≤ ((100000000000:ℝ) + 2) ^ (0.25:ℝ) :=
    le_rpow_of_pow_le 1 4 (by positivity) (by norm_num) (by norm_num) (by norm_num)
      (by norm_num)
  have hhi : De ((100000000000:ℝ)) 2 ≤ 1.30 * ((12000000:ℝ) / 562) := by
    rw [De]
    refine mul_le_mul_of_nonneg_left ?_ (by norm_num)
    exact div_le_div₀ (by norm_num) hnum2 (by norm_num) hden2
  have hgap : (2000:ℝ) ≤ De ((100000000000:ℝ)) 2.5 - De ((100000000000:ℝ)) 2 := by
    have haux : (2000:ℝ) ≤ 1.30 * ((13200000:ℝ) / 563) - 1.30 * ((12000000:ℝ) / 562) := by
      norm_num
    linarith
  have htie : |De ((100000000000:ℝ)) 2 - (De ((100000000000:ℝ)) 2 + De ((100000000000:ℝ)) 2.5) / 2|
      = |De ((100000000000:ℝ)) 2.5 - (De ((100000000000:ℝ)) 2 + De ((100000000000:ℝ)) 2.5) / 2| := by
    have harr : De ((100000000000:ℝ)) 2 - (De ((100000000000:ℝ)) 2 + De ((100000000000:ℝ)) 2.5) / 2
        = -(De ((100000000000:ℝ)) 2.5 - (De ((100000000000:ℝ)) 2 + De ((100000000000:ℝ)) 2.5) / 2) := by
      ring
    rw [harr, abs_neg]
  have hd1000 : (1000:ℝ) ≤
      |De ((100000000000:ℝ)) 2 - (De ((100000000000:ℝ)) 2 + De ((100000000000:ℝ)) 2.5) / 2| := by
    rw [abs_of_nonpos (by linarith)]
    linarith
  have hmin : ∀ y ∈ scanGrid,
      |De ((100000000000:ℝ)) 2 - (De ((100000000000:ℝ)) 2 + De ((100000000000:ℝ)) 2.5) / 2|
        ≤ |De ((100000000000:ℝ)) y - (De ((100000000000:ℝ)) 2 + De ((100000000000:ℝ)) 2.5) / 2| := by
    intro y hy
    by_cases h2 : y = 2
    · subst h2
      exact le_refl _
    · have h25 : (2.5:ℝ) ≤ y := scanGrid_ne_two hy h2
      have hDy : De ((100000000000:ℝ)) 2.5 ≤ De ((100000000000:ℝ)) y := De_mono hK (by norm_num) h25
      rw [abs_of_nonpos (by linarith), abs_of_nonneg (by linarith)]
      linarith
  have hTpos : (0:ℝ) < (De ((100000000000:ℝ)) 2 + De ((100000000000:ℝ)) 2.5) / 2 := by linarith
  have hres : solveRectDimension ((De ((100000000000:ℝ)) 2 + De ((100000000000:ℝ)) 2.5) / 2) ((100000000000:ℝ))
      = 0 := by
    rw [solveRectDimension, if_neg (by push_neg; exact ⟨hTpos, hK⟩)]
    have hall : ∀ x ∈ scanGrid, ((1000:ℝ), (0:ℝ)).1 ≤
        |De ((100000000000:ℝ)) x - (De ((100000000000:ℝ)) 2 + De ((100000000000:ℝ)) 2.5) / 2| := by
      intro x hx
      exact le_trans hd1000 (hmin x hx)
    rw [scan_noupdate _ _ scanGrid (1000, 0) hall]
  refine ⟨two_mem_scanGrid, twoPointFive_mem_scanGrid, by norm_num, htie, hmin, hres, ?_⟩
  rw [hres]
  norm_num

/-! ## C9 : scenario A (1000 CFM at 0.1 in.wg/100ft)

The solved diameter is `((0.109136 · 1000^1.9) / 0.1)^(1/5.02) ≈ 13.900`,
matching the spec's `≈ 13.9"`; but the derived velocity
`1000 / (π (D/24)²) ≈ 948.9` FPM, not the spec's `≈ 951`. -/

lemma scenarioA_dia_bounds :
    (13.893:ℝ) ≤ solveDiaByFriction 1000 0.1 ∧ solveDiaByFriction 1000 0.1 ≤ 13.905 := by
  have hL : (501187.2:ℝ) ≤ (1000:ℝ) ^ (1.9:ℝ) :=
    le_rpow_of_pow_le 19 10 (by norm_num) (by norm_num) (by norm_num) (by norm_num)
      (by norm_num)
  have hU : (1000:ℝ) ^ (1.9:ℝ) ≤ 501187.3 :=
    rpow_le_of_pow_le 19 10 (by norm_num) (by norm_num) (by norm_num) (by norm_num)
      (by norm_num)
  have hXlo : (546975:ℝ) ≤ (0.109136 * (1000:ℝ) ^ (1.9:ℝ)) / 0.1 := by
    rw [le_div_iff₀ (by norm_num : (0:ℝ) < 0.1)]
    nlinarith
  have hXhi : (0.109136 * (1000:ℝ) ^ (1.9:ℝ)) / 0.1 ≤ 546976 := by
    rw [div_le_iff₀ (by norm_num : (0:ℝ) < 0.1)]
    nlinarith
  have hXnn : (0:ℝ) ≤ (0.109136 * (1000:ℝ) ^ (1.9:ℝ)) / 0.1 := by linarith
  have hD_eq : solveDiaByFriction 1000 0.1
      = ((0.109136 * (1000:ℝ) ^ (1.9:ℝ)) / 0.1) ^ ((1:ℝ) / 5.02) := by
    rw [solveDiaByFriction, if_neg (by norm_num)]
  constructor
  · rw [hD_eq]
    have h1 : ((546975:ℝ)) ^ ((1:ℝ)/5.02)
        ≤ ((0.109136 * (1000:ℝ) ^ (1.9:ℝ)) / 0.1) ^ ((1:ℝ)/5.02) :=
      Real.rpow_le_rpow (by norm_num) hXlo (by norm_num)
    have h2 : (13.893:ℝ) ≤ (546975:ℝ) ^ ((1:ℝ)/5.02) :=
      le_rpow_of_pow_le 50 251 (by norm_num) (by norm_num) (by norm_num) (by norm_num)
        (by norm_num)
    linarith
  · rw [hD_eq]
    have h1 : ((0.109136 * (1000:ℝ) ^ (1.9:ℝ)) / 0.1) ^ ((1:ℝ)/5.02)
        ≤ ((546976:ℝ)) ^ ((1:ℝ)/5.02) :=
      Real.rpow_le_rpow hXnn hXhi (by norm_num)
    have h2 : (546976:ℝ) ^ ((1:ℝ)/5.02) ≤ 13.905 :=
      rpow_le_of_pow_le 50 251 (by norm_num) (by norm_num) (by norm_num) (by norm_num)
        (by norm_num)
    linarith

lemma scenarioA_vel_bounds :
    947.5 < calcVelocity 1000 (solveDiaByFriction 1000 0.1) ∧
    calcVelocity 1000 (solveDiaByFriction 1000 0.1) < 950 := by
  obtain ⟨hDlo, hDhi⟩ := scenarioA_dia_bounds
  have hDpos : (0:ℝ) < solveDiaByFriction 1000 0.1 := by linarith
  have hv_eq : calcVelocity 1000 (solveDiaByFriction 1000 0.1)
      = 1000 / (Real.pi * (solveDiaByFriction 1000 0.1 / 24) ^ 2) := by
    rw [calcVelocity, if_neg (not_le.mpr hDpos)]
  have hsqlo : (13.893:ℝ)^2 ≤ (solveDiaByFriction 1000 0.1)^2 := by nlinarith
  have hsqhi : (solveDiaByFriction 1000 0.1)^2 ≤ (13.905:ℝ)^2 := by nlinarith
  have hpi_lo := Real.pi_gt_d6
  have hpi_hi := Real.pi_lt_d6
  have hq : Real.pi * (solveDiaByFriction 1000 0.1 / 24) ^ 2
      = Real.pi * (solveDiaByFriction 1000 0.1)^2 / 576 := by ring
  have hQlo : (3.141592:ℝ) * (13.893:ℝ)^2 ≤ Real.pi * (solveDiaByFriction 1000 0.1)^2 := by
    nlinarith
  have hQhi : Real.pi * (solveDiaByFriction 1000 0.1)^2 ≤ (3.141593:ℝ) * (13.905:ℝ)^2 := by
    nlinarith
  have hQpos : (0:ℝ) < Real.pi * (solveDiaByFriction 1000 0.1)^2 / 576 := by nlinarith
  rw [hv_eq, hq]
  constructor
  · rw [lt_div_iff₀ hQpos]
    nlinarith
  · rw [div_lt_iff₀ hQpos]
    nlinarith

/-- Counterexample to C9 as stated: the velocity derived by the code for
Scenario A is below `950` FPM — more than `1` FPM away from the claimed
`≈ 951` (the true value is `≈ 948.9`, which does not round to `951`). -/
theorem scenarioA_velocity_counterexample :
    calcVelocity 1000 (solveDiaByFriction 1000 0.1) < 950 ∧
    1 < |calcVelocity 1000 (solveDiaByFriction 1000 0.1) - 951| := by
  obtain ⟨hlo, hhi⟩ := scenarioA_vel_bounds
  refine ⟨hhi, ?_⟩
  rw [abs_of_nonpos (by linarith)]
  linarith

/-- C9 (amended): for `airflow = 1000` CFM and `frictionTarget = 0.1`
in.wg/100ft the solved diameter is `≈ 13.9"` (within `0.01`) and the
derived velocity is `≈ 949` FPM (within `1.5`), not `951`. -/
theorem scenarioA_results :
    |solveDiaByFriction 1000 0.1 - 13.9| < 0.01 ∧
    |calcVelocity 1000 (solveDiaByFriction 1000 0.1) - 949| < 1.5 := by
  obtain ⟨hDlo, hDhi⟩ := scenarioA_dia_bounds
  obtain ⟨hvlo, hvhi⟩ := scenarioA_vel_bounds
  constructor
  · rw [abs_lt]
    constructor <;> linarith
  · rw [abs_lt]
    constructor <;> linarith

end DuctMaster
